import Mathlib

/-!
Verification of the ingestion core of the SAP-Transaction-Forensics repository
(`src/pattern-engine/src/ingest/`), as a shallow embedding in Lean 4.

Conventions of the embedding:
* Python string primitives (`strip`, `upper`, `in`, slicing) are implemented
  over `String.data` (`List Char`), matching Python's character semantics.
* CSV cell values (Python `str | int | float | None`) are the inductive type
  `Value`.  Python floats are modelled exactly by `PyFloat`, a decimal
  rational `num / 10 ^ exp`; `PyFloat.toRat` gives its mathematical value.
  Every float the loader manufactures comes from a decimal string, so this
  is exact.
* Python `datetime` milestone dates are modelled as integer day numbers; the
  loader only ever produces midnight datetimes, so `(b - a).days = b - a`.
* The loader's owned pseudo-random generator (`random.Random(seed)`) is
  modelled as a deterministic stream of natural-number draws fixed by the
  seed, consumed sequentially; `choice(pool)` returns the element at index
  `stream pos % pool.length` and advances the position.  This captures
  exactly the state threading of the single shared generator.
* Python's built-in `hash` of a string is salted per interpreter process
  (PYTHONHASHSEED); it is modelled as an explicit function parameter
  `hashFn : String -> Int`, so statements can quantify over the ambient salt.
-/

namespace CSVLoader

/-- Python `str.strip()` (over characters). -/
def pyStrip (s : String) : String :=
  String.mk (((s.data.dropWhile Char.isWhitespace).reverse.dropWhile
    Char.isWhitespace).reverse)

/-- Python `str.upper()` (ASCII, the only case the loader exercises). -/
def pyUpper (s : String) : String :=
  String.mk (s.data.map Char.toUpper)

/-- Python `c in s` for a single character. -/
def strHasChar (s : String) (c : Char) : Bool :=
  s.data.contains c

/-- Python `s.startswith(p)`. -/
def pyStartsWith (s p : String) : Bool :=
  p.data.isPrefixOf s.data

/-- Python `s[n:]` (drop the first `n` characters). -/
def pyDrop (s : String) (n : Nat) : String :=
  String.mk (s.data.drop n)

/-- Python `s[:n]` (take the first `n` characters). -/
def pyTake (s : String) (n : Nat) : String :=
  String.mk (s.data.take n)

/-- Python `len(s)`. -/
def pyLen (s : String) : Nat :=
  s.data.length

/-- An exact Python float of decimal origin: the value `num / 10 ^ exp`.
Every float built by the loader is parsed from a decimal string, so this
representation is exact. -/
structure PyFloat where
  num : Int
  exp : Nat
deriving DecidableEq, Repr

def tenPow : Nat → Int
  | 0 => 1
  | n + 1 => 10 * tenPow n

/-- The mathematical (rational) value of a `PyFloat`. -/
def PyFloat.toRat (f : PyFloat) : Rat :=
  (f.num : Rat) / (10 : Rat) ^ f.exp

/-- Python `<` on floats, decided by exact integer cross-multiplication. -/
def PyFloat.blt (a b : PyFloat) : Bool :=
  a.num * tenPow b.exp < b.num * tenPow a.exp

/-- A coerced CSV cell value: Python `None`, `int`, `float`, or `str`. -/
inductive Value where
  | none : Value
  | int (i : Int) : Value
  | float (f : PyFloat) : Value
  | str (s : String) : Value
deriving DecidableEq, Repr

/-- Python `str.isdigit()` restricted to ASCII digits (the only case the
loader exercises): nonempty and all characters are digits. -/
def isPyDigits (s : String) : Bool :=
  !s.data.isEmpty && s.data.all Char.isDigit

/-- Numeric value of a digit list, most significant first. -/
def digitsToNat (l : List Char) : Nat :=
  l.foldl (fun a c => a * 10 + (c.toNat - ('0').toNat)) 0

/-- Python `int(s)` on a string already known to be `-?digits`. -/
def intOfPyDigits (s : String) : Int :=
  if pyStartsWith s "-" then -(digitsToNat (s.data.drop 1) : Int)
  else (digitsToNat s.data : Int)

/-- One decimal-string parse step: split leading digits. -/
def spanDigits (l : List Char) : List Char × List Char :=
  (l.takeWhile Char.isDigit, l.dropWhile Char.isDigit)

/-- Python `float(s)` on decimal strings: optional sign, digits with an
optional fractional part, optional exponent.  (Python additionally accepts
`inf`, `nan` and underscore separators; those never arise in the claims.) -/
def parseFloat (s : String) : Option PyFloat :=
  let l := s.data
  let (neg, l) :=
    match l with
    | '-' :: t => (true, t)
    | '+' :: t => (false, t)
    | t => (false, t)
  let (ip, l) := spanDigits l
  let (fp, l) :=
    match l with
    | '.' :: t => spanDigits t
    | t => ([], t)
  if ip.isEmpty && fp.isEmpty then Option.none
  else
    let mant : Int := (digitsToNat ip * 10 ^ fp.length + digitsToNat fp : Nat)
    let mant : Int := if neg then -mant else mant
    match l with
    | [] => some ⟨mant, fp.length⟩
    | e :: t =>
      if e = 'e' || e = 'E' then
        let (esgn, t) :=
          match t with
          | '-' :: t2 => (true, t2)
          | '+' :: t2 => (false, t2)
          | t2 => (false, t2)
        let (ed, t) := spanDigits t
        if ed.isEmpty || !t.isEmpty then Option.none
        else if esgn then some ⟨mant, fp.length + digitsToNat ed⟩
        else some ⟨mant * tenPow (digitsToNat ed), fp.length⟩
      else Option.none

/-- `CSVLoader._clean_value`: strip, null-token normalization, integer
coercion of pure-digit strings, decimal-comma handling, float coercion;
anything that fails numeric coercion is returned as the (comma-to-dot
replaced) string, mirroring the Python control flow exactly. -/
def cleanValue (v : Option String) : Value :=
  match v with
  | Option.none => Value.none
  | some s0 =>
    let s := pyStrip s0
    if s = "" || pyUpper s ∈ ["NULL", "NA", "N/A", "#N/A"] then Value.none
    else if isPyDigits s || (pyStartsWith s "-" && isPyDigits (pyDrop s 1)) then
      Value.int (intOfPyDigits s)
    else
      let s1 := if strHasChar s ',' && !strHasChar s '.' then
        String.mk (s.data.map (fun c => if c = ',' then '.' else c)) else s
      match parseFloat (String.mk (s1.data.filter (fun c => c ≠ ','))) with
      | some q => Value.float q
      | Option.none => Value.str s1

/-- `CSVLoader.STRING_FIELDS`: canonical field names always kept as exact
strings (identifiers where leading zeros are significant). -/
def STRING_FIELDS : List String :=
  ["vbeln", "posnr", "matnr", "kunnr", "tdname", "tdid", "tdspras",
   "vbelv", "posnv", "posnn", "werks", "auart", "vkorg", "vtweg",
   "spart", "waerk", "pstyv", "vrkme", "ernam", "knumv", "tdobject",
   "vbtyp_v", "vbtyp_n"]

/-- The per-cell branch of `CSVLoader._load_csv`: whitelisted identifier
fields become `str(value).strip() if value else ''` (a falsy cell — `None`
or the empty string — becomes `''`); every other field goes through
`_clean_value`. -/
def loadCell (fieldName : String) (v : Option String) : Value :=
  if fieldName ∈ STRING_FIELDS then
    Value.str (match v with
      | some s => if s = "" then "" else pyStrip s
      | Option.none => "")
  else cleanValue v

/-- A normalized VBAK (sales order header) record, after `_load_csv`.
Fields on the `STRING_FIELDS` whitelist are always strings; the remaining
fields carry coerced `Value`s. -/
structure VbakRow where
  vbeln : String
  auart : String
  vkorg : String
  kunnr : String
  waerk : String
  netwr : Value
  erdat : Value
  vdatu : Value
deriving DecidableEq, Repr

/-- A normalized VBAP (sales order item) record, after `_load_csv`. -/
structure VbapRow where
  vbeln : String
  posnr : String
  matnr : String
  werks : String
  pstyv : String
  kwmeng : Value
  netwr : Value
deriving DecidableEq, Repr

/-- A normalized text (STXH/STXL) record, after `_load_csv`. -/
structure TextRow where
  tdname : String
  tdline : String
deriving DecidableEq, Repr

/-- A normalized VBFA (document flow) record, after `_load_csv`. -/
structure FlowRow where
  vbelv : String
  vbtypV : String
  vbeln : String
  vbtypN : String
  erdat : Value
deriving DecidableEq, Repr

/-- Per-document day-count metrics between milestone dates; `Option.none`
models the Python `None` entries of the timing dictionary. -/
structure TimingMetrics where
  orderToDeliveryDays : Option Int
  deliveryDelayDays : Option Int
  invoiceLagDays : Option Int
  orderToInvoiceDays : Option Int
deriving DecidableEq, Repr

/-- One guard of `_calculate_timing`: `if a and b: (b - a).days`, leaving
the metric at its initial `None` otherwise. -/
def dayDelta : Option Int → Option Int → Option Int
  | some a, some b => some (b - a)
  | some _, Option.none => Option.none
  | Option.none, _ => Option.none

/-- `CSVLoader._calculate_timing`: day-count metrics between milestone
dates (integer day numbers).  The timing dictionary starts with every
entry `None` and each of the four `if a and b` guards sets exactly one
entry, so each entry equals `dayDelta` of its two dates. -/
def calculateTiming (orderDate reqDelDate deliveryDate invoiceDate : Option Int) :
    TimingMetrics :=
  ⟨dayDelta orderDate deliveryDate,
   dayDelta reqDelDate deliveryDate,
   dayDelta deliveryDate invoiceDate,
   dayDelta orderDate invoiceDate⟩

/-- `CSVLoader.TEXT_PATTERNS`: the themed synthetic-text phrase pools. -/
def TEXT_PATTERNS : List (String × List String) :=
  [("high_value",
    ["High-value order - requires manager approval.",
     "Priority customer - expedited handling required.",
     "Large order quantity - verify stock availability."]),
   ("rush",
    ["Rush order - expedite processing.",
     "Customer requested express delivery.",
     "Urgent: Ship within 24 hours."]),
   ("international",
    ["International shipment - verify export documentation.",
     "Cross-border delivery - check customs requirements.",
     "Foreign customer - handle currency conversion."]),
   ("standard",
    ["Standard order processing.",
     "Regular customer order.",
     "Routine shipment."]),
   ("special_handling",
    ["Special packaging required.",
     "Fragile items - handle with care.",
     "Temperature-controlled shipping required."]),
   ("credit_check",
    ["Credit check pending.",
     "Credit limit exceeded - approval required.",
     "New customer - verify payment terms."]),
   ("backorder",
    ["Partial shipment authorized.",
     "Backorder created for remaining quantity.",
     "Material shortage - notify customer of delay."])]

/-- Look up a phrase pool by theme name. -/
def pool (k : String) : List String :=
  (TEXT_PATTERNS.lookup k).getD []

/-- `CSVLoader.ORDER_TYPE_DESC`: order type code to description. -/
def ORDER_TYPE_DESC : List (String × String) :=
  [("OR", "Standard Order"), ("RE", "Return Order"), ("CR", "Credit Memo"),
   ("DR", "Debit Memo"), ("SO", "Rush Order"), ("QT", "Quotation"),
   ("IN", "Inquiry")]

/-- The loader's owned `random.Random(seed)` generator: a deterministic
stream of draws fixed by the seed, plus the current position.  Consuming a
draw advances the position; nothing else mutates the generator. -/
structure Rng where
  stream : Nat → Nat
  pos : Nat

/-- `self._rng.choice(pool)`: pick the element indexed by the next draw and
advance the generator. -/
def Rng.choice (r : Rng) (p : List String) : String × Rng :=
  (p.getD (r.stream r.pos % p.length) "", ⟨r.stream, r.pos + 1⟩)

/-- `float(vbak.get('netwr', 0) or 0)`: the monetary value used by the
synthetic-text rules.  A falsy cell (absent, 0, or empty string) gives 0.
(Python raises on a non-numeric nonempty string; that case is modelled as 0
and is not exercised by any claim.) -/
def netValueOf (v : Value) : PyFloat :=
  match v with
  | Value.none => ⟨0, 0⟩
  | Value.int i => ⟨i, 0⟩
  | Value.float f => f
  | Value.str s => if s = "" then ⟨0, 0⟩ else (parseFloat s).getD ⟨0, 0⟩

/-- `self.ORDER_TYPE_DESC.get(order_type, 'Standard Order')`. -/
def orderTypeLabel (orderType : String) : String :=
  (ORDER_TYPE_DESC.lookup orderType).getD "Standard Order"

/-- The value-band rules of `_generate_synthetic_text` (net value over
100000 draws a high-value and a credit-check phrase from the generator;
the other bands append fixed phrases). -/
def valueTexts (netValue : PyFloat) (rng : Rng) : List String × Rng :=
  if PyFloat.blt ⟨100000, 0⟩ netValue then
    let (p1, rng) := rng.choice (pool "high_value")
    let (p2, rng) := rng.choice (pool "credit_check")
    ([p1, p2], rng)
  else if PyFloat.blt ⟨50000, 0⟩ netValue then
    (["Standard order processing."], rng)
  else if PyFloat.blt netValue ⟨1000, 0⟩ then
    (["Small order - consolidated shipping recommended."], rng)
  else ([], rng)

/-- The sales-organization rules of `_generate_synthetic_text`. -/
def regionTexts (salesOrg : String) : List String :=
  if salesOrg ∈ ["EMEA", "1000", "0001"] then ["European region order."]
  else if salesOrg ∈ ["APJ", "2000", "0002"] then
    ["Asia-Pacific region order.", "Check customs documentation requirements."]
  else if salesOrg ∈ ["AMER", "3000", "0003"] then ["Americas region order."]
  else []

/-- The item-count rules of `_generate_synthetic_text`. -/
def itemTexts (nItems : Nat) : List String :=
  if nItems > 5 then
    ["Multi-line order with " ++ toString nItems ++ " items.",
     "Check availability across all product lines."]
  else if nItems > 2 then ["Standard multi-item order."]
  else []

/-- The hash-gated rules of `_generate_synthetic_text`: depending on
`order_hash % 10`, draw one phrase from the rush, special-handling or
backorder pool (or none). -/
def hashTexts (orderHash : Int) (rng : Rng) : List String × Rng :=
  if orderHash.emod 10 < 2 then
    let (p, rng) := rng.choice (pool "rush")
    ([p], rng)
  else if orderHash.emod 10 < 4 then
    let (p, rng) := rng.choice (pool "special_handling")
    ([p], rng)
  else if orderHash.emod 10 < 5 then
    let (p, rng) := rng.choice (pool "backorder")
    ([p], rng)
  else ([], rng)

/-- `CSVLoader._generate_synthetic_text`.  `orderHash` is the value of
`hash(str(vbak.get('vbeln', '')) + str(self.random_seed))` — Python's
salted string hash, passed in explicitly.  The four rule groups append
their phrases in source order; the generator is consumed by the value
rules first, then by the hash-gated rules. -/
def generateSyntheticText (orderHash : Int) (rng : Rng) (vbak : VbakRow)
    (items : List VbapRow) : List String × Rng :=
  let salesOrg := pyUpper vbak.vkorg
  let orderType := pyUpper vbak.auart
  let netValue := netValueOf vbak.netwr
  let t0 := [orderTypeLabel orderType ++ " processing."]
  let tv := valueTexts netValue rng
  let tr := regionTexts salesOrg
  let ti := itemTexts items.length
  let th := hashTexts orderHash tv.2
  (t0 ++ tv.1 ++ tr ++ ti ++ th.1, th.2)

/-- Append a value to the list a Python dict-of-lists holds under a key
(`if k not in d: d[k] = []` followed by `d[k].append(v)`); key order is
insertion order, as for a Python dict. -/
def dictAppend {α : Type} (d : List (String × List α)) (k : String) (v : α) :
    List (String × List α) :=
  match d with
  | [] => [(k, [v])]
  | (k0, vs) :: rest =>
    if k0 = k then (k0, vs ++ [v]) :: rest else (k0, vs) :: dictAppend rest k v

/-- Python `d.get(k, [])` for a dict-of-lists. -/
def lookupD {α : Type} (d : List (String × List α)) (k : String) : List α :=
  match d with
  | [] => []
  | (k0, vs) :: rest => if k0 = k then vs else lookupD rest k

/-- Build a dict-of-lists from rows: each row either contributes a keyed
value or is skipped, in input order. -/
def buildIndex {β α : Type} (f : β → Option (String × α)) (rows : List β) :
    List (String × List α) :=
  rows.foldl (fun d row =>
    match f row with
    | some (k, v) => dictAppend d k v
    | Option.none => d) []

/-- `CSVLoader._group_by_key(vbap_records, 'vbeln')`: group item records by
their (stripped) document number, skipping empty keys. -/
def groupByKey (records : List VbapRow) : List (String × List VbapRow) :=
  buildIndex (fun r =>
    let k := pyStrip r.vbeln
    if k ≠ "" then some (k, r) else Option.none) records

/-- `CSVLoader._group_texts_by_order`: group text content by the order
number extracted from the first ten characters of TDNAME. -/
def groupTextsByOrder (records : List TextRow) : List (String × List String) :=
  buildIndex (fun r =>
    let tdname := pyStrip r.tdname
    let content := pyStrip r.tdline
    if tdname ≠ "" && content ≠ "" then
      let orderNum := if pyLen tdname ≥ 10 then pyStrip (pyTake tdname 10) else tdname
      some (orderNum, content)
    else Option.none) records

/-- A related-document entry of the flow index: the Python dict with keys
`document_number` and `created_date` (deliveries) or `billing_date`
(invoices). -/
structure DocRef where
  documentNumber : String
  date : Value
deriving DecidableEq, Repr

/-- The `deliveries_by_order` index of `_convert_to_documents`: every flow
record whose source category is C (order) and target category is J
(delivery) is appended under its preceding document id. -/
def deliveriesByOrder (vbfaRecords : List FlowRow) : List (String × List DocRef) :=
  buildIndex (fun f =>
    if pyUpper f.vbtypV = "C" && pyUpper f.vbtypN = "J" then
      some (f.vbelv, DocRef.mk f.vbeln f.erdat)
    else Option.none) vbfaRecords

/-- The `invoices_by_delivery` index of `_convert_to_documents`: every flow
record whose source category is J (delivery) and target category is M
(invoice) is appended under its preceding document id. -/
def invoicesByDelivery (vbfaRecords : List FlowRow) : List (String × List DocRef) :=
  buildIndex (fun f =>
    if pyUpper f.vbtypV = "J" && pyUpper f.vbtypN = "M" then
      some (f.vbelv, DocRef.mk f.vbeln f.erdat)
    else Option.none) vbfaRecords

/-- Python truthiness of a cell value. -/
def valueTruthy (v : Value) : Bool :=
  match v with
  | Value.none => false
  | Value.int i => i ≠ 0
  | Value.float f => f.num ≠ 0
  | Value.str s => s ≠ ""

/-- `min` of a list of day numbers; `Option.none` on the empty list (where
Python `min()` would raise; never exercised by the claims). -/
def minDateOf (l : List Int) : Option Int :=
  match l with
  | [] => Option.none
  | x :: xs => some (xs.foldl min x)

/-- One unified document as assembled by `_convert_to_documents`.  Date
formatting to ISO strings and the item field renaming of `_format_items`
are identity-like projections and are left implicit. -/
structure UnifiedDoc where
  docKey : String
  consolidatedText : String
  headerTexts : List String
  items : List VbapRow
  deliveries : List DocRef
  invoices : List DocRef
  orderDate : Option Int
  reqDelDate : Option Int
  deliveryDate : Option Int
  invoiceDate : Option Int
  timing : TimingMetrics
  nDeliveries : Nat
  nInvoices : Nat
deriving DecidableEq, Repr

/-- The context shared by every iteration of the `_convert_to_documents`
loop: the pre-built lookup indices, the date parser (`_parse_date`,
abstracted as a function on cell values), and the salted string hash. -/
structure ConvertCtx where
  parseDate : Value → Option Int
  hashFn : String → Int
  itemsByOrder : List (String × List VbapRow)
  textsByOrder : List (String × List String)
  delsByOrder : List (String × List DocRef)
  invsByDelivery : List (String × List DocRef)

/-- The body of one `_convert_to_documents` iteration for a header record
with a nonempty (stripped) document number: look up items and texts,
generate synthetic text when no real text exists (consuming the shared
generator), collect related deliveries and invoices through the flow
indices, derive the milestone dates and timing metrics. -/
def buildDoc (ctx : ConvertCtx) (rng : Rng) (vbak : VbakRow) (orderNum : String) :
    UnifiedDoc × Rng :=
  let items := lookupD ctx.itemsByOrder orderNum
  let txts := lookupD ctx.textsByOrder orderNum
  let gen :=
    if txts.isEmpty then generateSyntheticText (ctx.hashFn vbak.vbeln) rng vbak items
    else (txts, rng)
  let orderTexts := gen.1
  let rng := gen.2
  let consolidated := String.intercalate " " orderTexts
  let relatedDeliveries := lookupD ctx.delsByOrder orderNum
  let relatedInvoices :=
    relatedDeliveries.flatMap (fun d => lookupD ctx.invsByDelivery d.documentNumber)
  let orderDate := ctx.parseDate vbak.erdat
  let reqDelDate := ctx.parseDate vbak.vdatu
  let delDates := (relatedDeliveries.filter (fun d => valueTruthy d.date)).map
    (fun d => ctx.parseDate d.date)
  let deliveryDate := if delDates.isEmpty then Option.none
    else minDateOf (delDates.filterMap id)
  let invDates := (relatedInvoices.filter (fun d => valueTruthy d.date)).map
    (fun d => ctx.parseDate d.date)
  let invoiceDate := if invDates.isEmpty then Option.none
    else minDateOf (invDates.filterMap id)
  let timing := calculateTiming orderDate reqDelDate deliveryDate invoiceDate
  (⟨orderNum, consolidated, orderTexts, items, relatedDeliveries, relatedInvoices,
    orderDate, reqDelDate, deliveryDate, invoiceDate, timing,
    relatedDeliveries.length, relatedInvoices.length⟩, rng)

/-- The `for vbak in vbak_records` loop of `_convert_to_documents`: header
records with an empty (stripped) document number are skipped; the shared
generator threads through the remaining records in input order. -/
def convertLoop (ctx : ConvertCtx) (rng : Rng) : List VbakRow → List UnifiedDoc
  | [] => []
  | vbak :: rest =>
    let orderNum := pyStrip vbak.vbeln
    if orderNum = "" then convertLoop ctx rng rest
    else
      let res := buildDoc ctx rng vbak orderNum
      res.1 :: convertLoop ctx res.2 rest

/-- `CSVLoader._convert_to_documents`. -/
def convertToDocuments (parseDate : Value → Option Int) (hashFn : String → Int)
    (rng : Rng) (vbakRecords : List VbakRow) (vbapRecords : List VbapRow)
    (textRecords : List TextRow) (vbfaRecords : List FlowRow) : List UnifiedDoc :=
  convertLoop
    ⟨parseDate, hashFn, groupByKey vbapRecords, groupTextsByOrder textRecords,
     deliveriesByOrder vbfaRecords, invoicesByDelivery vbfaRecords⟩
    rng vbakRecords

/-- `CSVValidationResult` (the fields the validation logic writes;
`file_path` is plumbing and `row_count` comes from the decoded content). -/
structure CSVValidationResult where
  valid : Bool
  errors : List String
  warnings : List String
  detectedColumns : List String
  mappedColumns : List (String × String)
  unmappedColumns : List String
  rowCount : Nat
deriving DecidableEq, Repr

/-- The structural error recorded when every candidate encoding fails. -/
def decodeFailMsg : String :=
  "Could not decode file with any supported encoding"

/-- The body of `_validate_csv` once some encoding decoded the resource:
empty header row is rejected; headers are trimmed and mapped through the
alias table; the required canonical key must be reachable from some
header.  (The Python error and warning strings carry interpolated
details; they are abbreviated here, keeping the leading words.) -/
def processDecoded (fieldMap : List (String × String)) (requiredKey : String)
    (headers : List String) (rowCount : Nat) : CSVValidationResult :=
  if headers.isEmpty then
    ⟨false, ["No headers found in CSV"], [], [], [], [], 0⟩
  else
    let mapped := headers.filterMap (fun h =>
      (fieldMap.lookup (pyStrip h)).map (fun v => (pyStrip h, v)))
    let unmapped := (headers.filter (fun h =>
      (fieldMap.lookup (pyStrip h)).isNone)).map pyStrip
    let hasKey := headers.any (fun h =>
      fieldMap.lookup (pyStrip h) == some requiredKey)
    ⟨hasKey,
     if hasKey then [] else ["Required field " ++ requiredKey ++ " not found"],
     if unmapped.isEmpty then [] else ["Unmapped columns"],
     headers, mapped, unmapped, rowCount⟩

/-- The encoding fallback loop of `_validate_csv`.  `decode e` models
opening and reading the resource under encoding `e`: `Option.none` when a
`UnicodeDecodeError` occurs (the loop continues with the next candidate),
otherwise the decoded header row and row count. -/
def validateCSVAux (fieldMap : List (String × String)) (requiredKey : String)
    (decode : String → Option (List String × Nat)) :
    List String → CSVValidationResult
  | [] => ⟨false, [decodeFailMsg], [], [], [], [], 0⟩
  | e :: rest =>
    match decode e with
    | some (headers, rows) => processDecoded fieldMap requiredKey headers rows
    | Option.none => validateCSVAux fieldMap requiredKey decode rest

/-- The fixed encoding candidate order of `_validate_csv` and `_load_csv`:
the configured default, then UTF-8 with byte-order mark, then the two
Western single-byte encodings. -/
def ENCODING_CANDIDATES (defaultEncoding : String) : List String :=
  [defaultEncoding, "utf-8-sig", "latin-1", "cp1252"]

/-- `CSVLoader._validate_csv`. -/
def validateCSV (fieldMap : List (String × String)) (requiredKey : String)
    (decode : String → Option (List String × Nat)) (defaultEncoding : String) :
    CSVValidationResult :=
  validateCSVAux fieldMap requiredKey decode (ENCODING_CANDIDATES defaultEncoding)

end CSVLoader

/-- A document-flow edge as emitted by the adapters (`doc_flow` entries). -/
structure FlowLink where
  precedingDoc : String
  subsequentDoc : String
  precedingCategory : String
  subsequentCategory : String
deriving DecidableEq, Repr

/-- The step relation of a flow-edge list: `a` precedes `b` via some edge. -/
def EdgeRel (edges : List FlowLink) (a b : String) : Prop :=
  ∃ l ∈ edges, l.precedingDoc = a ∧ l.subsequentDoc = b

/-- Acyclicity of a flow-edge list: no document reaches itself through a
nonempty chain of edges. -/
def Acyclic (edges : List FlowLink) : Prop :=
  ∀ x, ¬ Relation.TransGen (EdgeRel edges) x x

/-- Does a character list start with `IR`? (Measure device for the BPI
adapter's synthetic invoice ids.) -/
def startsIR : List Char → Bool
  | a :: b :: _ => a == 'I' && b == 'R'
  | _ => false

/-- Node measure for the BPI adapter's graph: every emitted edge strictly
increases it. -/
def strWeightIR (s : String) : Nat :=
  2 * s.data.length + (if startsIR s.data then 1 else 0)

/-- Does a character list start with `9`? (Measure device for the SALT
adapter's synthetic invoice ids.) -/
def startsNine : List Char → Bool
  | a :: _ => a == '9'
  | _ => false

/-- Node measure for the SALT adapter's graph: every emitted edge strictly
increases it. -/
def strWeight9 (s : String) : Nat :=
  2 * s.data.length + (if startsNine s.data then 1 else 0)

namespace BPI2019

open CSVLoader

/-- One parsed BPI 2019 event, as produced by `_parse_csv_row`: the
purchasing document number (possibly absent), the raw activity name, and
the parsed timestamp (absent when unparseable), modelled in days. -/
structure BEvent where
  documentNumber : Option String
  activity : String
  timestamp : Option Int
deriving DecidableEq, Repr

/-- Substring search over character lists. -/
def strContainsAux (pat : List Char) : List Char → Bool
  | [] => pat.isPrefixOf ([] : List Char)
  | c :: t => pat.isPrefixOf (c :: t) || strContainsAux pat t

/-- Python `pat in s` (substring containment). -/
def strContains (s pat : String) : Bool :=
  strContainsAux pat.data s.data

/-- The sort key order of `doc_events.sort(key=lambda x: x['timestamp'] or
datetime.min)`: an absent timestamp sorts as the minimum. -/
def tsLe : Option Int → Option Int → Bool
  | Option.none, _ => true
  | some _, Option.none => false
  | some a, some b => decide (a ≤ b)

/-- Stable insertion of an event into an already sorted list. -/
def insertByTs (e : BEvent) : List BEvent → List BEvent
  | [] => [e]
  | x :: xs => if tsLe e.timestamp x.timestamp then e :: x :: xs
    else x :: insertByTs e xs

/-- Stable sort by timestamp.  (Python's `list.sort` is stable, and a
stable sort under a total preorder key has a unique result, so insertion
sort models it exactly.) -/
def sortByTs (l : List BEvent) : List BEvent :=
  l.foldr insertByTs []

/-- The keys of the adapter's `self._documents` dict: the distinct nonempty
document numbers of the event log, in first-occurrence (insertion) order. -/
def documentKeys (events : List BEvent) : List String :=
  events.foldl (fun acc e =>
    match e.documentNumber with
    | some d => if d ≠ "" && !acc.contains d then acc ++ [d] else acc
    | Option.none => acc) []

/-- `[e for e in self._events if e.get('document_number') == doc_num]`. -/
def docEvents (events : List BEvent) (d : String) : List BEvent :=
  events.filter (fun e => e.documentNumber == some d)

/-- The date-extraction scan of `to_workflow_format`: walk the sorted
events; the creation date is the minimum timestamp of events whose
activity contains `Create` or `Record Purchase Order`; the goods-receipt
and invoice dates are the first timestamps of events containing
`Goods Receipt`/`Receive Goods` and `Invoice` respectively; events with an
absent timestamp are skipped. -/
def scanDates (evs : List BEvent) : Option Int × Option Int × Option Int :=
  evs.foldl (fun acc e =>
    let (cd, gd, ivd) := acc
    match e.timestamp with
    | Option.none => (cd, gd, ivd)
    | some t =>
      let cd := if strContains e.activity "Create" ||
          strContains e.activity "Record Purchase Order" then
        match cd with
        | Option.none => some t
        | some c => if t < c then some t else some c
      else cd
      let gd := if strContains e.activity "Goods Receipt" ||
          strContains e.activity "Receive Goods" then
        match gd with
        | Option.none => some t
        | some g => some g
      else gd
      let ivd := if strContains e.activity "Invoice" then
        match ivd with
        | Option.none => some t
        | some x => some x
      else ivd
      (cd, gd, ivd)) (Option.none, Option.none, Option.none)

/-- A converted purchase order (`sales_orders` entry; metadata fields the
claims do not touch are omitted). -/
structure BOrder where
  documentNumber : String
  createdDate : Option Int
deriving DecidableEq, Repr

/-- A synthetic delivery created from the goods-receipt date. -/
structure BDelivery where
  documentNumber : String
  createdDate : Int
deriving DecidableEq, Repr

/-- A synthetic invoice created from the invoice-receipt date. -/
structure BInvoice where
  documentNumber : String
  billingDate : Int
deriving DecidableEq, Repr

/-- The per-document body of `to_workflow_format`: skip documents with no
events; otherwise scan the sorted events for the key dates, emit the
order, a synthetic delivery `GR<doc>` with a PO-to-GR edge when a
goods-receipt date exists, and a synthetic invoice `IR<doc>` with a
GR-to-invoice edge (or a PO-to-invoice edge when no delivery exists). -/
def perDoc (events : List BEvent) (d : String) :
    Option (BOrder × Option BDelivery × Option BInvoice × List FlowLink) :=
  let evs := docEvents events d
  if evs.isEmpty then Option.none
  else
    let (cd, gd, ivd) := scanDates (sortByTs evs)
    let order : BOrder := ⟨d, cd⟩
    let del := gd.map (fun g => (⟨"GR" ++ d, g⟩ : BDelivery))
    let delEdges : List FlowLink :=
      match gd with
      | some _ => [⟨d, "GR" ++ d, "F", "R"⟩]
      | Option.none => []
    let inv := ivd.map (fun t => (⟨"IR" ++ d, t⟩ : BInvoice))
    let invEdges : List FlowLink :=
      match ivd with
      | some _ =>
        if gd.isSome then [⟨"GR" ++ d, "IR" ++ d, "R", "P"⟩]
        else [⟨d, "IR" ++ d, "F", "P"⟩]
      | Option.none => []
    some (order, del, inv, delEdges ++ invEdges)

/-- The workflow-format output of the BPI adapter (node collections and
flow edges; the vendor/customer and material lists are untouched by the
claims). -/
structure BWorkflow where
  salesOrders : List BOrder
  deliveries : List BDelivery
  invoices : List BInvoice
  docFlow : List FlowLink
deriving DecidableEq, Repr

/-- `BPI2019Adapter.to_workflow_format` (flow inference from the activity
log). -/
def toWorkflowFormat (events : List BEvent) : BWorkflow :=
  let docs := documentKeys events
  ⟨docs.filterMap (fun d => (perDoc events d).map (fun x => x.1)),
   docs.filterMap (fun d => (perDoc events d).bind (fun x => x.2.1)),
   docs.filterMap (fun d => (perDoc events d).bind (fun x => x.2.2.1)),
   docs.flatMap (fun d =>
     match perDoc events d with
     | some x => x.2.2.2
     | Option.none => [])⟩

/-- All document numbers present in the produced node collections. -/
def BWorkflow.nodeIds (w : BWorkflow) : List String :=
  w.salesOrders.map (fun o => o.documentNumber) ++
  w.deliveries.map (fun o => o.documentNumber) ++
  w.invoices.map (fun o => o.documentNumber)

end BPI2019

namespace SALT

open CSVLoader

/-- One row of the (normalized) SALT sales-document table: the document
number, the raw creation-date cell, and the sold-to party.  (The many
metadata columns the claims do not touch are omitted.) -/
structure SaltRow where
  documentNumber : String
  createdDate : Option String
  customer : String
deriving DecidableEq, Repr

/-- `SALTAdapter._parse_date`: an eight-digit SAP date is reformatted to
ISO; any other string passes through unchanged; an absent value stays
absent. -/
def parseDate (v : Option String) : Option String :=
  match v with
  | Option.none => Option.none
  | some s =>
    if pyLen s = 8 && isPyDigits s then
      some (pyTake s 4 ++ "-" ++ pyTake (pyDrop s 4) 2 ++ "-" ++ pyDrop s 6)
    else some s

/-- A converted sales order (`sales_orders` entry). -/
structure SOrder where
  documentNumber : String
  createdDate : Option String
  customer : String
deriving DecidableEq, Repr

/-- A synthetic delivery (`8` prefix, SAP numbering convention). -/
structure SDelivery where
  documentNumber : String
  createdDate : String
  actualGiDate : String
  customer : String
deriving DecidableEq, Repr

/-- A synthetic invoice (`9` prefix, SAP numbering convention). -/
structure SInvoice where
  documentNumber : String
  billingDate : String
  customer : String
deriving DecidableEq, Repr

/-- The group keys of `sales_df.groupby('document_number')`.  (pandas
returns group keys in sorted order; every property stated here is
independent of the key order, and the embedding keeps first-occurrence
order.) -/
def docKeys (rows : List SaltRow) : List String :=
  rows.foldl (fun acc r =>
    if !acc.contains r.documentNumber then acc ++ [r.documentNumber] else acc) []

/-- The per-group body of `SALTAdapter.to_workflow_format` with
`generate_events=True`: emit the order from the group's first row; when
the parsed creation date is truthy, also emit a synthetic delivery
`8<doc>`, a synthetic invoice `9<doc>`, and the order-to-delivery and
delivery-to-invoice flow edges.  `addDays` abstracts the `created + n
days` ISO date arithmetic (with its fallback to the raw created date). -/
def perDoc (addDays : String → Nat → String) (rows : List SaltRow) (d : String) :
    SOrder × Option (SDelivery × SInvoice × List FlowLink) :=
  let group := rows.filter (fun r => r.documentNumber == d)
  let firstRow := group.headD ⟨d, Option.none, ""⟩
  let createdDate := parseDate firstRow.createdDate
  let customer := firstRow.customer
  let order : SOrder := ⟨d, createdDate, customer⟩
  match createdDate with
  | some c =>
    if c ≠ "" then
      let deliveryNum := "8" ++ d
      let invoiceNum := "9" ++ d
      (order, some (⟨deliveryNum, addDays c 3, addDays c 4, customer⟩,
        ⟨invoiceNum, addDays c 5, customer⟩,
        [⟨d, deliveryNum, "C", "J"⟩, ⟨deliveryNum, invoiceNum, "J", "M"⟩]))
    else (order, Option.none)
  | Option.none => (order, Option.none)

/-- The workflow-format output of the SALT adapter. -/
structure SWorkflow where
  salesOrders : List SOrder
  deliveries : List SDelivery
  invoices : List SInvoice
  docFlow : List FlowLink
deriving DecidableEq, Repr

/-- `SALTAdapter.to_workflow_format` (with `generate_events=True`). -/
def toWorkflowFormat (addDays : String → Nat → String) (rows : List SaltRow) :
    SWorkflow :=
  let docs := docKeys rows
  ⟨docs.map (fun d => (perDoc addDays rows d).1),
   docs.filterMap (fun d => ((perDoc addDays rows d).2).map (fun x => x.1)),
   docs.filterMap (fun d => ((perDoc addDays rows d).2).map (fun x => x.2.1)),
   docs.flatMap (fun d =>
     match (perDoc addDays rows d).2 with
     | some x => x.2.2
     | Option.none => [])⟩

/-- All document numbers present in the produced node collections. -/
def SWorkflow.nodeIds (w : SWorkflow) : List String :=
  w.salesOrders.map (fun o => o.documentNumber) ++
  w.deliveries.map (fun o => o.documentNumber) ++
  w.invoices.map (fun o => o.documentNumber)

end SALT

namespace CSVLoader

/-- One slot of a document's synthetic-text shape: a fixed phrase, or a
draw from a themed pool (whose concrete member the shared generator
picks). -/
inductive TextPiece where
  | fixed (s : String) : TextPiece
  | draw (p : List String) : TextPiece
deriving DecidableEq, Repr

/-- The shape of the value-band rules: which phrases are fixed and which
pools are drawn from, as a function of the net value alone. -/
def valueShape (netValue : PyFloat) : List TextPiece :=
  if PyFloat.blt ⟨100000, 0⟩ netValue then
    [TextPiece.draw (pool "high_value"), TextPiece.draw (pool "credit_check")]
  else if PyFloat.blt ⟨50000, 0⟩ netValue then
    [TextPiece.fixed "Standard order processing."]
  else if PyFloat.blt netValue ⟨1000, 0⟩ then
    [TextPiece.fixed "Small order - consolidated shipping recommended."]
  else []

/-- The shape of the hash-gated rules, as a function of the order hash
alone. -/
def hashShape (orderHash : Int) : List TextPiece :=
  if orderHash.emod 10 < 2 then [TextPiece.draw (pool "rush")]
  else if orderHash.emod 10 < 4 then [TextPiece.draw (pool "special_handling")]
  else if orderHash.emod 10 < 5 then [TextPiece.draw (pool "backorder")]
  else []

/-- The synthetic-text shape of one document: a function of the document's
characteristics and its order hash only — independent of the generator
state, hence of the document's position in the batch. -/
def syntheticTextShape (orderHash : Int) (vbak : VbakRow) (items : List VbapRow) :
    List TextPiece :=
  [TextPiece.fixed (orderTypeLabel (pyUpper vbak.auart) ++ " processing.")] ++
  valueShape (netValueOf vbak.netwr) ++
  (regionTexts (pyUpper vbak.vkorg)).map TextPiece.fixed ++
  (itemTexts items.length).map TextPiece.fixed ++
  hashShape orderHash

/-- A generated sentence realizes a shape slot: it equals the fixed phrase,
or is a member of the drawn pool. -/
def RealizesPiece (s : String) (p : TextPiece) : Prop :=
  match p with
  | TextPiece.fixed t => s = t
  | TextPiece.draw pl => s ∈ pl

/-- A generated text list realizes a shape slot-by-slot. -/
def Realizes (out : List String) (shape : List TextPiece) : Prop :=
  List.Forall₂ RealizesPiece out shape

end CSVLoader

open CSVLoader

/-- C8: value coercion on a non-identifier field maps `"1234,56"` to the
float 1234.56 (exactly 123456/100), maps `"NULL"`, the empty string,
`"NA"`, `"N/A"`, `"#N/A"` (case-insensitively) to the absent value, and a
whitelisted identifier field keeps `"0000000001"` as the unchanged string,
never the integer 1. -/
theorem C8_value_coercion_examples :
    cleanValue (some "1234,56") = Value.float ⟨123456, 2⟩ ∧
    PyFloat.toRat ⟨123456, 2⟩ = 1234.56 ∧
    cleanValue (some "NULL") = Value.none ∧
    cleanValue (some "null") = Value.none ∧
    cleanValue (some "") = Value.none ∧
    cleanValue (some "NA") = Value.none ∧
    cleanValue (some "na") = Value.none ∧
    cleanValue (some "N/A") = Value.none ∧
    cleanValue (some "n/a") = Value.none ∧
    cleanValue (some "#N/A") = Value.none ∧
    cleanValue (some "#n/a") = Value.none ∧
    loadCell "vbeln" (some "0000000001") = Value.str "0000000001" ∧
    loadCell "vbeln" (some "0000000001") ≠ Value.int 1 :=
  ⟨by decide, by norm_num [PyFloat.toRat], by decide, by decide, by decide,
   by decide, by decide, by decide, by decide, by decide, by decide,
   by decide, by decide⟩

/-- C5: each timing metric is present exactly when both of its milestone
dates are present, and then equals their integer day difference; a
same-day pair yields `some 0`, distinct from the absent `Option.none`. -/
theorem C5_timing_metrics_present_iff_both_dates :
    ∀ o r d i : Option Int,
    ((calculateTiming o r d i).orderToDeliveryDays = Option.none ↔
      (o = Option.none ∨ d = Option.none)) ∧
    (∀ a b, o = some a → d = some b →
      (calculateTiming o r d i).orderToDeliveryDays = some (b - a)) ∧
    ((calculateTiming o r d i).deliveryDelayDays = Option.none ↔
      (r = Option.none ∨ d = Option.none)) ∧
    (∀ a b, r = some a → d = some b →
      (calculateTiming o r d i).deliveryDelayDays = some (b - a)) ∧
    ((calculateTiming o r d i).invoiceLagDays = Option.none ↔
      (d = Option.none ∨ i = Option.none)) ∧
    (∀ a b, d = some a → i = some b →
      (calculateTiming o r d i).invoiceLagDays = some (b - a)) ∧
    ((calculateTiming o r d i).orderToInvoiceDays = Option.none ↔
      (o = Option.none ∨ i = Option.none)) ∧
    (∀ a b, o = some a → i = some b →
      (calculateTiming o r d i).orderToInvoiceDays = some (b - a)) ∧
    (∀ a, o = some a → d = some a →
      (calculateTiming o r d i).orderToDeliveryDays = some 0 ∧
      (calculateTiming o r d i).orderToDeliveryDays ≠ Option.none) := by
  intro o r d i
  cases o <;> cases r <;> cases d <;> cases i <;>
    simp +contextual [calculateTiming, dayDelta]

/-- C5 witness: at order date 10 and delivery date 10 (same day), the
order-to-delivery metric is `some 0`, not absent. -/
theorem C5_timing_metrics_witness :
    (calculateTiming (some 10) Option.none (some 10) Option.none).orderToDeliveryDays
      = some 0 ∧
    (calculateTiming (some 10) Option.none (some 10) Option.none).orderToDeliveryDays
      ≠ Option.none :=
  (C5_timing_metrics_present_iff_both_dates (some 10) Option.none (some 10)
    Option.none).2.2.2.2.2.2.2.2 10 rfl rfl

/-- C10: identifier whitelist fields are loaded as the trimmed cell string
verbatim — null tokens such as `"NULL"` stay literal and empty or missing
cells become the empty string, never absent — while non-whitelisted fields
normalize those very inputs to the absent value. -/
theorem C10_identifier_whitelist_fields_verbatim :
    (∀ f ∈ STRING_FIELDS,
      (∀ v, loadCell f (some v) = Value.str (pyStrip v)) ∧
      loadCell f Option.none = Value.str "" ∧
      loadCell f (some "NULL") = Value.str "NULL") ∧
    (∀ g, g ∉ STRING_FIELDS →
      loadCell g (some "NULL") = Value.none ∧
      loadCell g Option.none = Value.none ∧
      loadCell g (some "") = Value.none) := by
  constructor
  · intro f hf
    refine ⟨?_, ?_, ?_⟩
    · intro v
      by_cases hv : v = ""
      · subst hv; simp [loadCell, hf]; rfl
      · simp [loadCell, hf, hv]
    · simp [loadCell, hf]
    · simp [loadCell, hf]; rfl
  · intro g hg
    refine ⟨?_, ?_, ?_⟩ <;> simp only [loadCell, if_neg hg] <;> decide

/-- C10 witness: `vbeln` is whitelisted and keeps `" 0000000001 "` as the
trimmed string; `netwr` is not whitelisted and maps `"NULL"` to absent. -/
theorem C10_identifier_whitelist_witness :
    loadCell "vbeln" (some " 0000000001 ") = Value.str "0000000001" ∧
    loadCell "netwr" (some "NULL") = Value.none := by
  constructor
  · have h := (C10_identifier_whitelist_fields_verbatim.1 "vbeln"
      (by decide)).1 " 0000000001 "
    rw [h]; decide
  · exact (C10_identifier_whitelist_fields_verbatim.2 "netwr" (by decide)).1

/-- C1 (code bug): the synthetic text generated for a fixed seed and a
fixed header record still depends on the value of Python's salted string
hash: with hash residue 0 a rush phrase is drawn, with residue 5 none is,
so the outputs differ.  Since `hash()` is salted per interpreter process,
the output is not a function of the seed and the inputs alone and changes
across process restarts. -/
theorem C1_synthetic_text_depends_on_hash_salt :
    (generateSyntheticText 0 ⟨fun _ => 0, 0⟩
      ⟨"4500000001", "OR", "", "", "", Value.int 2000, Value.none, Value.none⟩
      []).1 ≠
    (generateSyntheticText 5 ⟨fun _ => 0, 0⟩
      ⟨"4500000001", "OR", "", "", "", Value.int 2000, Value.none, Value.none⟩
      []).1 := by
  decide

/-- The number of documents the conversion loop emits equals the number of
header records whose stripped document number is nonempty, whatever the
generator state. -/
theorem convertLoop_length (ctx : ConvertCtx) :
    ∀ (l : List VbakRow) (rng : Rng),
    (convertLoop ctx rng l).length =
    (l.filter (fun r => pyStrip r.vbeln ≠ "")).length := by
  intro l
  induction l with
  | nil => intro rng; rfl
  | cons v rest ih =>
    intro rng
    by_cases h : pyStrip v.vbeln = ""
    · simp [convertLoop, h, ih]
    · simp [convertLoop, h, ih]

/-- C7 (amended): the loader produces one unified document per header
record with a nonempty (stripped) document id — duplicated header ids
yield duplicated documents, so the count equals the number of such
records, not the number of distinct ids. -/
theorem C7_amended_one_document_per_nonempty_header_record
    (pd : Value → Option Int) (hf : String → Int) (rng : Rng)
    (vbak : List VbakRow) (vbap : List VbapRow) (texts : List TextRow)
    (vbfa : List FlowRow) :
    (convertToDocuments pd hf rng vbak vbap texts vbfa).length =
    (vbak.filter (fun r => pyStrip r.vbeln ≠ "")).length :=
  convertLoop_length _ vbak rng

/-- C7 counterexample: two header records sharing the document id `O1`
produce two unified documents, while the header resource has one distinct
nonempty document id — refuting "one Document per unique document id". -/
theorem C7_counterexample_duplicate_header_ids :
    (convertToDocuments (fun _ => Option.none) (fun _ => 5) ⟨fun _ => 0, 0⟩
      [⟨"O1", "OR", "", "", "", Value.none, Value.none, Value.none⟩,
       ⟨"O1", "OR", "", "", "", Value.none, Value.none, Value.none⟩]
      [] [] []).length = 2 ∧
    ((([⟨"O1", "OR", "", "", "", Value.none, Value.none, Value.none⟩,
        ⟨"O1", "OR", "", "", "", Value.none, Value.none, Value.none⟩] :
        List VbakRow).map (fun r => pyStrip r.vbeln)).filter
          (fun s => s ≠ "")).dedup.length = 1 := by
  constructor
  · decide
  · decide

/-- `filterMap` respects pointwise-equal functions. -/
theorem filterMapExt {β α : Type} (g1 g2 : β → Option α) (l : List β)
    (h : ∀ x, g1 x = g2 x) : l.filterMap g1 = l.filterMap g2 := by
  induction l with
  | nil => rfl
  | cons x xs ih => simp [List.filterMap_cons, h x, ih]

/-- Looking a key up after a dict-of-lists append: the appended value lands
at the end of that key's list and leaves every other key unchanged. -/
theorem lookupD_dictAppend {α : Type} (d : List (String × List α)) (k0 k : String)
    (v : α) :
    lookupD (dictAppend d k0 v) k =
    if k0 = k then lookupD d k ++ [v] else lookupD d k := by
  induction d with
  | nil => by_cases h : k0 = k <;> simp [dictAppend, lookupD, h]
  | cons p rest ih =>
    obtain ⟨k1, vs⟩ := p
    by_cases h1 : k1 = k0
    · subst h1
      by_cases h : k1 = k <;> simp [dictAppend, lookupD, h]
    · by_cases h : k1 = k
      · subst h
        have hk : ¬k0 = k1 := fun hh => h1 hh.symm
        simp [dictAppend, lookupD, h1, hk]
      · simp [dictAppend, lookupD, h1, h, ih]

/-- A key's list in a built index is exactly the values its rows contribute
under that key, in input order (multiplicities preserved). -/
theorem lookupD_buildIndex {β α : Type} (f : β → Option (String × α))
    (rows : List β) (k : String) :
    lookupD (buildIndex f rows) k = rows.filterMap (fun r =>
      match f r with
      | some (k0, v) => if k0 = k then some v else Option.none
      | Option.none => Option.none) := by
  have main : ∀ (rows : List β) (d : List (String × List α)),
      lookupD (rows.foldl (fun d row =>
        match f row with
        | some (kv : String × α) => dictAppend d kv.1 kv.2
        | Option.none => d) d) k =
      lookupD d k ++ rows.filterMap (fun r =>
        match f r with
        | some (k0, v) => if k0 = k then some v else Option.none
        | Option.none => Option.none) := by
    intro rows
    induction rows with
    | nil => intro d; simp
    | cons r rest ih =>
      intro d
      cases hfr : f r with
      | none => simp [List.foldl_cons, hfr, ih]
      | some kv =>
        obtain ⟨k0, v⟩ := kv
        by_cases h : k0 = k
        · subst h
          simp [List.foldl_cons, hfr, ih, lookupD_dictAppend]
        · simp [List.foldl_cons, hfr, ih, lookupD_dictAppend, h]
  have hb : buildIndex f rows = rows.foldl (fun d row =>
      match f row with
      | some (kv : String × α) => dictAppend d kv.1 kv.2
      | Option.none => d) [] := by
    unfold buildIndex
    congr 1
    funext d row
    cases f row <;> rfl
  rw [hb, main rows []]
  rfl

/-- The claim-relevant projections of the document the loop body builds. -/
theorem buildDoc_fields (ctx : ConvertCtx) (rng : Rng) (vbak : VbakRow)
    (orderNum : String) :
    (buildDoc ctx rng vbak orderNum).1.docKey = orderNum ∧
    (buildDoc ctx rng vbak orderNum).1.deliveries =
      lookupD ctx.delsByOrder orderNum ∧
    (buildDoc ctx rng vbak orderNum).1.invoices =
      (lookupD ctx.delsByOrder orderNum).flatMap
        (fun d => lookupD ctx.invsByDelivery d.documentNumber) :=
  ⟨rfl, rfl, rfl⟩

/-- Every document the conversion loop emits comes from some header record
of the batch with a nonempty stripped id, built by `buildDoc` at some
generator state. -/
theorem convertLoop_mem (ctx : ConvertCtx) :
    ∀ (l : List VbakRow) (rng : Rng) (doc : UnifiedDoc),
    doc ∈ convertLoop ctx rng l →
    ∃ rec rng2, rec ∈ l ∧ pyStrip rec.vbeln ≠ "" ∧
      doc = (buildDoc ctx rng2 rec (pyStrip rec.vbeln)).1 := by
  intro l
  induction l with
  | nil => intro rng doc h; simp [convertLoop] at h
  | cons v rest ih =>
    intro rng doc h
    by_cases hv : pyStrip v.vbeln = ""
    · simp only [convertLoop, hv, if_pos, if_true] at h
      obtain ⟨rec, rng2, hrec, hne, hdeq⟩ := ih rng doc (by simpa [hv] using h)
      exact ⟨rec, rng2, List.mem_cons_of_mem _ hrec, hne, hdeq⟩
    · simp only [convertLoop, hv, if_neg, if_false] at h
      rcases (by simpa [hv] using h :
          doc = (buildDoc ctx rng v (pyStrip v.vbeln)).1 ∨
          doc ∈ convertLoop ctx (buildDoc ctx rng v (pyStrip v.vbeln)).2 rest) with
        hd | hrest
      · exact ⟨v, rng, List.mem_cons_self v rest, hv, hd⟩
      · obtain ⟨rec, rng2, hrec, hne, hdeq⟩ := ih _ doc hrest
        exact ⟨rec, rng2, List.mem_cons_of_mem _ hrec, hne, hdeq⟩

/-- C3 (amended): a document's related-delivery list contains one entry per
order-to-delivery (C to J) flow record whose preceding id is the document,
in input order — multiplicities preserved, duplicates NOT suppressed — and
likewise its related-invoice list chains one entry per delivery-to-invoice
(J to M) flow record through each related delivery. -/
theorem C3_amended_flow_links_preserve_multiplicity
    (pd : Value → Option Int) (hf : String → Int) (rng : Rng)
    (vbak : List VbakRow) (vbap : List VbapRow) (texts : List TextRow)
    (vbfa : List FlowRow) (doc : UnifiedDoc)
    (hdoc : doc ∈ convertToDocuments pd hf rng vbak vbap texts vbfa) :
    doc.deliveries = vbfa.filterMap (fun f =>
      if pyUpper f.vbtypV = "C" && pyUpper f.vbtypN = "J" &&
        f.vbelv = doc.docKey
      then some (DocRef.mk f.vbeln f.erdat) else Option.none) ∧
    doc.invoices = doc.deliveries.flatMap (fun dref => vbfa.filterMap (fun f =>
      if pyUpper f.vbtypV = "J" && pyUpper f.vbtypN = "M" &&
        f.vbelv = dref.documentNumber
      then some (DocRef.mk f.vbeln f.erdat) else Option.none)) := by
  obtain ⟨rec, rng2, hrec, hne, hdeq⟩ := convertLoop_mem _ vbak rng doc hdoc
  subst hdeq
  have hdel : ∀ key, lookupD (deliveriesByOrder vbfa) key =
      vbfa.filterMap (fun f =>
        if pyUpper f.vbtypV = "C" && pyUpper f.vbtypN = "J" && f.vbelv = key
        then some (DocRef.mk f.vbeln f.erdat) else Option.none) := by
    intro key
    rw [deliveriesByOrder, lookupD_buildIndex]
    apply filterMapExt
    intro f
    by_cases h1 : pyUpper f.vbtypV = "C" <;> by_cases h2 : pyUpper f.vbtypN = "J" <;>
      by_cases h3 : f.vbelv = key <;> simp [h1, h2, h3]
  have hinv : ∀ key, lookupD (invoicesByDelivery vbfa) key =
      vbfa.filterMap (fun f =>
        if pyUpper f.vbtypV = "J" && pyUpper f.vbtypN = "M" && f.vbelv = key
        then some (DocRef.mk f.vbeln f.erdat) else Option.none) := by
    intro key
    rw [invoicesByDelivery, lookupD_buildIndex]
    apply filterMapExt
    intro f
    by_cases h1 : pyUpper f.vbtypV = "J" <;> by_cases h2 : pyUpper f.vbtypN = "M" <;>
      by_cases h3 : f.vbelv = key <;> simp [h1, h2, h3]
  have hb := buildDoc_fields
    ⟨pd, hf, groupByKey vbap, groupTextsByOrder texts,
     deliveriesByOrder vbfa, invoicesByDelivery vbfa⟩ rng2 rec (pyStrip rec.vbeln)
  constructor
  · rw [hb.1, hb.2.1]
    exact hdel _
  · rw [hb.2.2, hb.2.1]
    simp only [hinv]

/-- C3 counterexample: two identical order-to-delivery flow records (the
same 4-tuple twice) put the same link twice into the produced document's
related-delivery list — the duplicate is not suppressed. -/
theorem C3_counterexample_duplicate_flow_records_kept :
    ((convertToDocuments (fun _ => Option.none) (fun _ => 5) ⟨fun _ => 0, 0⟩
      [⟨"O1", "OR", "", "", "", Value.none, Value.none, Value.none⟩] [] []
      [⟨"O1", "C", "D1", "J", Value.none⟩,
       ⟨"O1", "C", "D1", "J", Value.none⟩]).map (fun doc => doc.deliveries)) =
      [[⟨"D1", Value.none⟩, ⟨"D1", Value.none⟩]] ∧
    ((convertToDocuments (fun _ => Option.none) (fun _ => 5) ⟨fun _ => 0, 0⟩
      [⟨"O1", "OR", "", "", "", Value.none, Value.none, Value.none⟩] [] []
      [⟨"O1", "C", "D1", "J", Value.none⟩,
       ⟨"O1", "C", "D1", "J", Value.none⟩]).map
        (fun doc => doc.deliveries.count ⟨"D1", Value.none⟩)) = [2] := by
  constructor
  · decide
  · decide

/-- C3 amended witness: for a single order-to-delivery flow record, the
amended multiplicity statement instantiates to a one-element
related-delivery list. -/
theorem C3_amended_witness :
    ((convertToDocuments (fun _ => Option.none) (fun _ => 5) ⟨fun _ => 0, 0⟩
      [⟨"O1", "OR", "", "", "", Value.none, Value.none, Value.none⟩] [] []
      [⟨"O1", "C", "D1", "J", Value.none⟩]).headD
        ⟨"", "", [], [], [], [], Option.none, Option.none, Option.none,
         Option.none, ⟨Option.none, Option.none, Option.none, Option.none⟩,
         0, 0⟩).deliveries = [⟨"D1", Value.none⟩] := by
  have h := (C3_amended_flow_links_preserve_multiplicity
    (fun _ => Option.none) (fun _ => 5) ⟨fun _ => 0, 0⟩
    [⟨"O1", "OR", "", "", "", Value.none, Value.none, Value.none⟩] [] []
    [⟨"O1", "C", "D1", "J", Value.none⟩]
    ((convertToDocuments (fun _ => Option.none) (fun _ => 5) ⟨fun _ => 0, 0⟩
      [⟨"O1", "OR", "", "", "", Value.none, Value.none, Value.none⟩] [] []
      [⟨"O1", "C", "D1", "J", Value.none⟩]).headD
        ⟨"", "", [], [], [], [], Option.none, Option.none, Option.none,
         Option.none, ⟨Option.none, Option.none, Option.none, Option.none⟩,
         0, 0⟩)
    (by decide)).1
  rw [h]
  decide
/-- A nonempty list's `getD` at an index reduced modulo its length is a
member of the list. -/
theorem getD_mod_mem (l : List String) (hl : l ≠ []) (n : Nat) :
    l.getD (n % l.length) "" ∈ l := by
  have hlen : 0 < l.length := List.length_pos.2 hl
  have hmod : n % l.length < l.length := Nat.mod_lt _ hlen
  rw [List.getD_eq_getElem?_getD, List.getElem?_eq_getElem hmod]
  simp [List.getElem_mem hmod]

/-- The phrase `choice` returns is a member of a nonempty pool, for every
generator state. -/
theorem choice_mem (r : Rng) (p : List String) (hp : p ≠ []) :
    (r.choice p).1 ∈ p :=
  getD_mod_mem p hp (r.stream r.pos)

/-- Realization is compatible with concatenation. -/
theorem realizesAppend {o1 s1 o2 s2 : _} (h1 : Realizes o1 s1)
    (h2 : Realizes o2 s2) : Realizes (o1 ++ o2) (s1 ++ s2) := by
  induction h1 with
  | nil => simpa using h2
  | cons h t ih => exact List.Forall₂.cons h ih

/-- A list of fixed phrases realizes its own shape. -/
theorem realizesFixed (l : List String) : Realizes l (l.map TextPiece.fixed) := by
  induction l with
  | nil => exact List.Forall₂.nil
  | cons x xs ih => exact List.Forall₂.cons rfl ih

/-- The value-band rules realize the value shape, for every generator
state. -/
theorem valueTexts_realizes (netValue : PyFloat) (rng : Rng) :
    Realizes (valueTexts netValue rng).1 (valueShape netValue) := by
  by_cases h1 : PyFloat.blt ⟨100000, 0⟩ netValue
  · simp only [valueTexts, valueShape, h1, if_true]
    exact List.Forall₂.cons (choice_mem _ _ (by decide))
      (List.Forall₂.cons (choice_mem _ _ (by decide)) List.Forall₂.nil)
  · by_cases h2 : PyFloat.blt ⟨50000, 0⟩ netValue
    · simp only [valueTexts, valueShape, h1, h2, if_true, if_false]
      exact List.Forall₂.cons rfl List.Forall₂.nil
    · by_cases h3 : PyFloat.blt netValue ⟨1000, 0⟩
      · simp only [valueTexts, valueShape, h1, h2, h3, if_true, if_false]
        exact List.Forall₂.cons rfl List.Forall₂.nil
      · simp only [valueTexts, valueShape, h1, h2, h3, if_false]
        exact List.Forall₂.nil

/-- The hash-gated rules realize the hash shape, for every generator
state. -/
theorem hashTexts_realizes (orderHash : Int) (rng : Rng) :
    Realizes (hashTexts orderHash rng).1 (hashShape orderHash) := by
  by_cases h1 : orderHash.emod 10 < 2
  · simp only [hashTexts, hashShape, h1, if_true]
    exact List.Forall₂.cons (choice_mem _ _ (by decide)) List.Forall₂.nil
  · by_cases h2 : orderHash.emod 10 < 4
    · simp only [hashTexts, hashShape, h1, h2, if_true, if_false]
      exact List.Forall₂.cons (choice_mem _ _ (by decide)) List.Forall₂.nil
    · by_cases h3 : orderHash.emod 10 < 5
      · simp only [hashTexts, hashShape, h1, h2, h3, if_true, if_false]
        exact List.Forall₂.cons (choice_mem _ _ (by decide)) List.Forall₂.nil
      · simp only [hashTexts, hashShape, h1, h2, h3, if_false]
        exact List.Forall₂.nil

/-- For every generator state, the synthetic text realizes the shape
determined by the document characteristics and the order hash alone. -/
theorem generateSyntheticText_realizes (orderHash : Int) (rng : Rng)
    (vbak : VbakRow) (items : List VbapRow) :
    Realizes (generateSyntheticText orderHash rng vbak items).1
      (syntheticTextShape orderHash vbak items) :=
  realizesAppend
    (realizesAppend
      (realizesAppend
        (realizesAppend (List.Forall₂.cons rfl List.Forall₂.nil)
          (valueTexts_realizes _ _))
        (realizesFixed _))
      (realizesFixed _))
    (hashTexts_realizes _ _)

/-- C2 (amended): in a batch with no real text records, each produced
document's generated text realizes, slot by slot, a shape that is a
function of that document's header record, its items, and the stable hash
of its id alone — so permuting the batch preserves each document's fixed
phrases and which themed pools it draws from; only the concrete phrase
drawn from a pool comes from the loader's single sequential generator and
may change with the document's position. -/
theorem C2_amended_text_shape_is_batch_order_independent
    (pd : Value → Option Int) (hf : String → Int) (rng : Rng)
    (vbak : List VbakRow) (vbap : List VbapRow) (vbfa : List FlowRow) :
    List.Forall₂ (fun (doc : UnifiedDoc) (rec : VbakRow) =>
      Realizes doc.headerTexts
        (syntheticTextShape (hf rec.vbeln) rec
          (lookupD (groupByKey vbap) (pyStrip rec.vbeln))))
      (convertToDocuments pd hf rng vbak vbap [] vbfa)
      (vbak.filter (fun r => pyStrip r.vbeln ≠ "")) := by
  unfold convertToDocuments
  induction vbak generalizing rng with
  | nil => exact List.Forall₂.nil
  | cons v rest ih =>
    by_cases hv : pyStrip v.vbeln = ""
    · simpa [convertLoop, hv] using ih rng
    · simp only [convertLoop]
      rw [if_neg hv, List.filter_cons, if_pos (by simpa using hv)]
      exact List.Forall₂.cons
        (generateSyntheticText_realizes (hf v.vbeln) rng v
          (lookupD (groupByKey vbap) (pyStrip v.vbeln)))
        (by simpa using ih _)

/-- C2 counterexample: two high-value header records `A1` and `B1`, same
seed (generator stream) and same per-process hash; swapping their order in
the batch changes the text generated for `A1`, because the concrete
phrases are drawn from the loader's single sequential generator whose
draws shift with batch position. -/
theorem C2_counterexample_batch_order_changes_text :
    let a : VbakRow := ⟨"A1", "OR", "", "", "", Value.int 200000,
      Value.none, Value.none⟩
    let b : VbakRow := ⟨"B1", "OR", "", "", "", Value.int 200000,
      Value.none, Value.none⟩
    let d1 := convertToDocuments (fun _ => Option.none) (fun _ => 5)
      ⟨fun n => n, 0⟩ [a, b] [] [] []
    let d2 := convertToDocuments (fun _ => Option.none) (fun _ => 5)
      ⟨fun n => n, 0⟩ [b, a] [] [] []
    d1.head?.map (fun doc => doc.docKey) = some "A1" ∧
    (d2.drop 1).head?.map (fun doc => doc.docKey) = some "A1" ∧
    d1.head?.map (fun doc => doc.consolidatedText) ≠
      (d2.drop 1).head?.map (fun doc => doc.consolidatedText) := by
  decide

/-- The cannot-decode structural error differs from the missing-required-
field error for every required key. -/
theorem requiredFieldMsg_ne (rk : String) :
    decodeFailMsg ≠ "Required field " ++ rk ++ " not found" := by
  intro h
  have h2 := congrArg String.data h
  rw [String.data_append, String.data_append] at h2
  have h3 : decodeFailMsg.data =
      'C' :: ("ould not decode file with any supported encoding").data := rfl
  have h4 : ("Required field ").data = 'R' :: ("equired field ").data := rfl
  rw [h3, h4] at h2
  simp at h2

/-- Once some encoding decoded the resource, the cannot-decode structural
error is never recorded. -/
theorem decodeFailMsg_not_mem_processDecoded (fm : List (String × String))
    (rk : String) (hs : List String) (n : Nat) :
    decodeFailMsg ∉ (processDecoded fm rk hs n).errors := by
  unfold processDecoded
  by_cases h : hs.isEmpty
  · simp only [h, if_true]
    decide
  · simp only [h, if_false, Bool.false_eq_true]
    by_cases hk : (hs.any fun h2 => fm.lookup (pyStrip h2) == some rk)
    · simp [hk]
    · simp [hk]
      exact requiredFieldMsg_ne rk

/-- The encoding fallback loop, over an arbitrary candidate list: the
cannot-decode error is recorded exactly when every candidate fails; in
that case the result is invalid; and when some candidate succeeds, the
result is the processing of the first successful decode. -/
theorem validateCSVAux_spec (fm : List (String × String)) (rk : String)
    (dec : String → Option (List String × Nat)) :
    ∀ encs : List String,
    (decodeFailMsg ∈ (validateCSVAux fm rk dec encs).errors ↔
      ∀ e ∈ encs, dec e = Option.none) ∧
    ((∀ e ∈ encs, dec e = Option.none) →
      (validateCSVAux fm rk dec encs).valid = false) ∧
    (∀ e hs n, encs.find? (fun x => (dec x).isSome) = some e →
      dec e = some (hs, n) →
      validateCSVAux fm rk dec encs = processDecoded fm rk hs n) := by
  intro encs
  induction encs with
  | nil =>
    refine ⟨by simp [validateCSVAux], fun _ => by simp [validateCSVAux], ?_⟩
    intro e hs n hfind
    simp at hfind
  | cons e rest ih =>
    cases hde : dec e with
    | some p =>
      obtain ⟨hs0, n0⟩ := p
      have hred : validateCSVAux fm rk dec (e :: rest) =
          processDecoded fm rk hs0 n0 := by
        simp [validateCSVAux, hde]
      refine ⟨?_, ?_, ?_⟩
      · rw [hred]
        constructor
        · intro hmem
          exact absurd hmem (decodeFailMsg_not_mem_processDecoded fm rk hs0 n0)
        · intro hall
          exact absurd (hall e (List.mem_cons_self e rest)) (by simp [hde])
      · intro hall
        exact absurd (hall e (List.mem_cons_self e rest)) (by simp [hde])
      · intro e2 hs n hfind hdec
        have he2 : e = e2 := by
          simpa [List.find?_cons, hde] using hfind
        subst he2
        rw [hde] at hdec
        simp only [Option.some.injEq, Prod.mk.injEq] at hdec
        obtain ⟨rfl, rfl⟩ := hdec
        exact hred
    | none =>
      have hred : validateCSVAux fm rk dec (e :: rest) =
          validateCSVAux fm rk dec rest := by
        simp [validateCSVAux, hde]
      refine ⟨?_, ?_, ?_⟩
      · rw [hred]
        constructor
        · intro hmem x hx
          rcases List.mem_cons.1 hx with hx1 | hx2
          · subst hx1; exact hde
          · exact (ih.1).1 hmem x hx2
        · intro hall
          exact (ih.1).2 fun x hx => hall x (List.mem_cons_of_mem _ hx)
      · intro hall
        rw [hred]
        exact ih.2.1 fun x hx => hall x (List.mem_cons_of_mem _ hx)
      · intro e2 hs n hfind hdec
        rw [hred]
        have hfind2 : rest.find? (fun x => (dec x).isSome) = some e2 := by
          simpa [List.find?_cons, hde] using hfind
        exact ih.2.2 e2 hs n hfind2 hdec

/-- C9: validation tries the encodings in the fixed order (configured
default, UTF-8 with byte-order mark, latin-1, cp1252) and keeps the first
that decodes without error — the result is exactly the processing of that
first successful decode; the cannot-decode structural error is recorded in
the returned report if and only if every encoding in the list fails, and
then the result is marked invalid. -/
theorem C9_encoding_fallback_first_success_and_structural_error
    (fm : List (String × String)) (rk : String)
    (dec : String → Option (List String × Nat)) (enc : String) :
    (decodeFailMsg ∈ (validateCSV fm rk dec enc).errors ↔
      ∀ e ∈ ENCODING_CANDIDATES enc, dec e = Option.none) ∧
    ((∀ e ∈ ENCODING_CANDIDATES enc, dec e = Option.none) →
      (validateCSV fm rk dec enc).valid = false) ∧
    (∀ e hs n,
      (ENCODING_CANDIDATES enc).find? (fun x => (dec x).isSome) = some e →
      dec e = some (hs, n) →
      validateCSV fm rk dec enc = processDecoded fm rk hs n) :=
  validateCSVAux_spec fm rk dec (ENCODING_CANDIDATES enc)

/-- C9 witness: with a resource undecodable in every candidate encoding,
the report is invalid and carries the cannot-decode structural error; with
a first-candidate success, the result is the processed decode. -/
theorem C9_encoding_fallback_witness :
    (validateCSV [] "vbeln" (fun _ => Option.none) "utf-8").valid = false ∧
    decodeFailMsg ∈ (validateCSV [] "vbeln" (fun _ => Option.none) "utf-8").errors ∧
    validateCSV [("VBELN", "vbeln")] "vbeln"
      (fun e => if e = "utf-8" then some (["VBELN"], 3) else Option.none) "utf-8" =
      processDecoded [("VBELN", "vbeln")] "vbeln" ["VBELN"] 3 := by
  refine ⟨?_, ?_, ?_⟩
  · exact (C9_encoding_fallback_first_success_and_structural_error
      [] "vbeln" (fun _ => Option.none) "utf-8").2.1 (fun e he => rfl)
  · exact (C9_encoding_fallback_first_success_and_structural_error
      [] "vbeln" (fun _ => Option.none) "utf-8").1.mpr (fun e he => rfl)
  · exact (C9_encoding_fallback_first_success_and_structural_error
      [("VBELN", "vbeln")] "vbeln"
      (fun e => if e = "utf-8" then some (["VBELN"], 3) else Option.none)
      "utf-8").2.2 "utf-8" ["VBELN"] 3 (by decide) (by decide)

/-- Inserting an event whose key is at most the head's leaves it in front. -/
theorem insertByTs_head (e x : BPI2019.BEvent) (xs : List BPI2019.BEvent)
    (h : BPI2019.tsLe e.timestamp x.timestamp = true) :
    BPI2019.insertByTs e (x :: xs) = e :: x :: xs := by
  simp [BPI2019.insertByTs, h]

/-- A list already sorted by the timestamp key is a fixed point of the
stable sort. -/
theorem sortByTs_of_sorted :
    ∀ l : List BPI2019.BEvent,
    List.Pairwise (fun a b => BPI2019.tsLe a.timestamp b.timestamp = true) l →
    BPI2019.sortByTs l = l := by
  intro l
  induction l with
  | nil => intro _; rfl
  | cons x xs ih =>
    intro hp
    have hx : BPI2019.sortByTs (x :: xs) =
        BPI2019.insertByTs x (BPI2019.sortByTs xs) := rfl
    rw [hx, ih hp.of_cons]
    cases xs with
    | nil => rfl
    | cons y ys =>
      exact insertByTs_head x y ys
        ((List.pairwise_cons.1 hp).1 y (List.mem_cons_self y ys))

/-- C6: an activity log with the three events Create PO at `t0`, Record
Goods Receipt at `t1`, Record Invoice Receipt at `t2` (with `t0 ≤ t1 ≤
t2`) for one purchase document converts to exactly one creation-to-delivery
edge and one delivery-to-invoice edge, with the synthetic delivery and
invoice ids derived from the document id by the fixed prefixes `GR` and
`IR`, the delivery dated `t1`, the invoice dated `t2`, and the
delivery-to-invoice day delta equal to `t2 - t1`. -/
theorem C6_three_event_log_produces_expected_edges (t0 t1 t2 : Int)
    (h01 : t0 ≤ t1) (h12 : t1 ≤ t2) :
    BPI2019.toWorkflowFormat
      [⟨some "4500000001", "Create PO", some t0⟩,
       ⟨some "4500000001", "Record Goods Receipt", some t1⟩,
       ⟨some "4500000001", "Record Invoice Receipt", some t2⟩] =
      ⟨[⟨"4500000001", some t0⟩], [⟨"GR4500000001", t1⟩],
       [⟨"IR4500000001", t2⟩],
       [⟨"4500000001", "GR4500000001", "F", "R"⟩,
        ⟨"GR4500000001", "IR4500000001", "R", "P"⟩]⟩ ∧
    (calculateTiming Option.none Option.none (some t1) (some t2)).invoiceLagDays
      = some (t2 - t1) := by
  have h02 : t0 ≤ t2 := le_trans h01 h12
  have hde : BPI2019.docEvents
      [⟨some "4500000001", "Create PO", some t0⟩,
       ⟨some "4500000001", "Record Goods Receipt", some t1⟩,
       ⟨some "4500000001", "Record Invoice Receipt", some t2⟩] "4500000001" =
      [⟨some "4500000001", "Create PO", some t0⟩,
       ⟨some "4500000001", "Record Goods Receipt", some t1⟩,
       ⟨some "4500000001", "Record Invoice Receipt", some t2⟩] := rfl
  have hsorted : BPI2019.sortByTs (BPI2019.docEvents
      [⟨some "4500000001", "Create PO", some t0⟩,
       ⟨some "4500000001", "Record Goods Receipt", some t1⟩,
       ⟨some "4500000001", "Record Invoice Receipt", some t2⟩] "4500000001") =
      [⟨some "4500000001", "Create PO", some t0⟩,
       ⟨some "4500000001", "Record Goods Receipt", some t1⟩,
       ⟨some "4500000001", "Record Invoice Receipt", some t2⟩] := by
    rw [hde]
    apply sortByTs_of_sorted
    simp [List.pairwise_cons, BPI2019.tsLe, h01, h02, h12]
  have key : BPI2019.perDoc
      [⟨some "4500000001", "Create PO", some t0⟩,
       ⟨some "4500000001", "Record Goods Receipt", some t1⟩,
       ⟨some "4500000001", "Record Invoice Receipt", some t2⟩] "4500000001" =
      some (⟨"4500000001", some t0⟩, some ⟨"GR4500000001", t1⟩,
        some ⟨"IR4500000001", t2⟩,
        [⟨"4500000001", "GR4500000001", "F", "R"⟩,
         ⟨"GR4500000001", "IR4500000001", "R", "P"⟩]) := by
    simp only [BPI2019.perDoc, hsorted]
    rfl
  constructor
  · simp only [BPI2019.toWorkflowFormat]
    rw [show BPI2019.documentKeys
        [⟨some "4500000001", "Create PO", some t0⟩,
         ⟨some "4500000001", "Record Goods Receipt", some t1⟩,
         ⟨some "4500000001", "Record Invoice Receipt", some t2⟩] =
        ["4500000001"] from rfl]
    simp [key]
  · simp [calculateTiming, dayDelta]

/-- C6 witness: the three-event log at days 0, 1, 2 yields the two expected
edges, the delivery dated day 1, the invoice dated day 2, and an
invoice-lag of 2 - 1 days. -/
theorem C6_three_event_log_witness :
    BPI2019.toWorkflowFormat
      [⟨some "4500000001", "Create PO", some 0⟩,
       ⟨some "4500000001", "Record Goods Receipt", some 1⟩,
       ⟨some "4500000001", "Record Invoice Receipt", some 2⟩] =
      ⟨[⟨"4500000001", some 0⟩], [⟨"GR4500000001", 1⟩], [⟨"IR4500000001", 2⟩],
       [⟨"4500000001", "GR4500000001", "F", "R"⟩,
        ⟨"GR4500000001", "IR4500000001", "R", "P"⟩]⟩ ∧
    (calculateTiming Option.none Option.none (some 1) (some 2)).invoiceLagDays
      = some (2 - 1) :=
  C6_three_event_log_produces_expected_edges 0 1 2 (by decide) (by decide)

/-- A strictly increasing node measure along every edge rules out cycles. -/
theorem acyclic_of_measure (edges : List FlowLink) (w : String → Nat)
    (h : ∀ l ∈ edges, w l.precedingDoc < w l.subsequentDoc) :
    Acyclic edges := by
  intro x hx
  have mono : ∀ a b, Relation.TransGen (EdgeRel edges) a b → w a < w b := by
    intro a b hab
    induction hab with
    | single hr =>
      obtain ⟨l, hl, h1, h2⟩ := hr
      rw [← h1, ← h2]
      exact h l hl
    | tail _ hr ih =>
      obtain ⟨l, hl, h1, h2⟩ := hr
      rw [← h2]
      exact lt_trans ih (h1 ▸ h l hl)
  exact absurd (mono x x hx) (lt_irrefl _)

theorem data_GR_append (d : String) : ("GR" ++ d).data = 'G' :: 'R' :: d.data := by
  rw [String.data_append, show ("GR").data = ['G', 'R'] from rfl]
  rfl

theorem data_IR_append (d : String) : ("IR" ++ d).data = 'I' :: 'R' :: d.data := by
  rw [String.data_append, show ("IR").data = ['I', 'R'] from rfl]
  rfl

theorem data_eight_append (d : String) : ("8" ++ d).data = '8' :: d.data := by
  rw [String.data_append, show ("8").data = ['8'] from rfl]
  rfl

theorem data_nine_append (d : String) : ("9" ++ d).data = '9' :: d.data := by
  rw [String.data_append, show ("9").data = ['9'] from rfl]
  rfl

theorem strWeightIR_GR (d : String) :
    strWeightIR ("GR" ++ d) = 2 * d.data.length + 4 := by
  simp [strWeightIR, data_GR_append, startsIR]
  ring

theorem strWeightIR_IR (d : String) :
    strWeightIR ("IR" ++ d) = 2 * d.data.length + 5 := by
  simp [strWeightIR, data_IR_append, startsIR]
  ring

theorem strWeightIR_le (d : String) : strWeightIR d ≤ 2 * d.data.length + 1 := by
  unfold strWeightIR
  by_cases h : startsIR d.data <;> simp [h]

theorem strWeight9_eight (d : String) :
    strWeight9 ("8" ++ d) = 2 * d.data.length + 2 := by
  simp [strWeight9, data_eight_append, startsNine]
  ring

theorem strWeight9_nine (d : String) :
    strWeight9 ("9" ++ d) = 2 * d.data.length + 3 := by
  simp [strWeight9, data_nine_append, startsNine]
  ring

theorem strWeight9_le (d : String) : strWeight9 d ≤ 2 * d.data.length + 1 := by
  unfold strWeight9
  by_cases h : startsNine d.data <;> simp [h]

/-- Shape of one BPI document's conversion: the order carries the document
id; the synthetic delivery and invoice ids are `GR<doc>` and `IR<doc>`;
and every emitted edge is one of the three PO-to-GR, GR-to-invoice,
PO-to-invoice shapes, present exactly when the corresponding nodes are. -/
theorem bpi_perDoc_shape (events : List BPI2019.BEvent) (d : String)
    (x : BPI2019.BOrder × Option BPI2019.BDelivery × Option BPI2019.BInvoice ×
      List FlowLink)
    (hx : BPI2019.perDoc events d = some x) :
    x.1.documentNumber = d ∧
    (∀ del, x.2.1 = some del → del.documentNumber = "GR" ++ d) ∧
    (∀ inv, x.2.2.1 = some inv → inv.documentNumber = "IR" ++ d) ∧
    (∀ l ∈ x.2.2.2,
      (l = ⟨d, "GR" ++ d, "F", "R"⟩ ∧ x.2.1.isSome) ∨
      (l = ⟨"GR" ++ d, "IR" ++ d, "R", "P"⟩ ∧ x.2.1.isSome ∧ x.2.2.1.isSome) ∨
      (l = ⟨d, "IR" ++ d, "F", "P"⟩ ∧ x.2.2.1.isSome)) := by
  unfold BPI2019.perDoc at hx
  by_cases he : (BPI2019.docEvents events d).isEmpty
  · rw [if_pos he] at hx
    exact absurd hx (by simp)
  · rw [if_neg he] at hx
    rcases hsc : BPI2019.scanDates
      (BPI2019.sortByTs (BPI2019.docEvents events d)) with ⟨cd, gd, ivd⟩
    rw [hsc] at hx
    cases gd with
    | none =>
      cases ivd with
      | none =>
        simp only [Option.some.injEq] at hx
        subst hx
        refine ⟨rfl, by simp, by simp, ?_⟩
        intro l hl
        simp at hl
      | some t =>
        simp only [Option.some.injEq] at hx
        subst hx
        refine ⟨rfl, by simp, ?_, ?_⟩
        · intro inv hinv
          injection hinv with h
          rw [← h]
        · intro l hl
          simp at hl
          subst hl
          right; right
          exact ⟨rfl, rfl⟩
    | some g =>
      cases ivd with
      | none =>
        simp only [Option.some.injEq] at hx
        subst hx
        refine ⟨rfl, ?_, by simp, ?_⟩
        · intro del hdel
          injection hdel with h
          rw [← h]
        · intro l hl
          simp at hl
          subst hl
          left
          exact ⟨rfl, rfl⟩
      | some t =>
        simp only [Option.some.injEq] at hx
        subst hx
        refine ⟨rfl, ?_, ?_, ?_⟩
        · intro del hdel
          injection hdel with h
          rw [← h]
        · intro inv hinv
          injection hinv with h
          rw [← h]
        · intro l hl
          simp at hl
          rcases hl with h1 | h2
          · subst h1
            left
            exact ⟨rfl, rfl⟩
          · subst h2
            right; left
            exact ⟨rfl, rfl, rfl⟩

/-- Every emitted BPI flow edge comes from some converted document. -/
theorem bpi_docFlow_src (events : List BPI2019.BEvent) (l : FlowLink)
    (hl : l ∈ (BPI2019.toWorkflowFormat events).docFlow) :
    ∃ d x, d ∈ BPI2019.documentKeys events ∧
      BPI2019.perDoc events d = some x ∧ l ∈ x.2.2.2 := by
  simp only [BPI2019.toWorkflowFormat] at hl
  rw [List.mem_flatMap] at hl
  obtain ⟨d, hd, hld⟩ := hl
  cases hx : BPI2019.perDoc events d with
  | none => rw [hx] at hld; simp at hld
  | some x => rw [hx] at hld; exact ⟨d, x, hd, hx, hld⟩

/-- The order node of a converted BPI document is in the node collections. -/
theorem bpi_order_node_mem (events : List BPI2019.BEvent) (d : String)
    (x : BPI2019.BOrder × Option BPI2019.BDelivery × Option BPI2019.BInvoice ×
      List FlowLink)
    (hd : d ∈ BPI2019.documentKeys events)
    (hx : BPI2019.perDoc events d = some x) :
    d ∈ (BPI2019.toWorkflowFormat events).nodeIds := by
  have h1 : x.1 ∈ (BPI2019.toWorkflowFormat events).salesOrders := by
    simp only [BPI2019.toWorkflowFormat]
    exact List.mem_filterMap.2 ⟨d, hd, by rw [hx]; rfl⟩
  have hnum := (bpi_perDoc_shape events d x hx).1
  simp only [BPI2019.BWorkflow.nodeIds, List.mem_append]
  exact Or.inl (Or.inl (by rw [← hnum]; exact List.mem_map_of_mem _ h1))

/-- A synthetic BPI delivery node is in the node collections. -/
theorem bpi_delivery_node_mem (events : List BPI2019.BEvent) (d : String)
    (x : BPI2019.BOrder × Option BPI2019.BDelivery × Option BPI2019.BInvoice ×
      List FlowLink) (del : BPI2019.BDelivery)
    (hd : d ∈ BPI2019.documentKeys events)
    (hx : BPI2019.perDoc events d = some x) (hdel : x.2.1 = some del) :
    "GR" ++ d ∈ (BPI2019.toWorkflowFormat events).nodeIds := by
  have h1 : del ∈ (BPI2019.toWorkflowFormat events).deliveries := by
    simp only [BPI2019.toWorkflowFormat]
    exact List.mem_filterMap.2 ⟨d, hd, by rw [hx]; exact hdel⟩
  have hnum := (bpi_perDoc_shape events d x hx).2.1 del hdel
  simp only [BPI2019.BWorkflow.nodeIds, List.mem_append]
  exact Or.inl (Or.inr (by rw [← hnum]; exact List.mem_map_of_mem _ h1))

/-- A synthetic BPI invoice node is in the node collections. -/
theorem bpi_invoice_node_mem (events : List BPI2019.BEvent) (d : String)
    (x : BPI2019.BOrder × Option BPI2019.BDelivery × Option BPI2019.BInvoice ×
      List FlowLink) (inv : BPI2019.BInvoice)
    (hd : d ∈ BPI2019.documentKeys events)
    (hx : BPI2019.perDoc events d = some x) (hinv : x.2.2.1 = some inv) :
    "IR" ++ d ∈ (BPI2019.toWorkflowFormat events).nodeIds := by
  have h1 : inv ∈ (BPI2019.toWorkflowFormat events).invoices := by
    simp only [BPI2019.toWorkflowFormat]
    exact List.mem_filterMap.2 ⟨d, hd, by rw [hx]; exact hinv⟩
  have hnum := (bpi_perDoc_shape events d x hx).2.2.1 inv hinv
  simp only [BPI2019.BWorkflow.nodeIds, List.mem_append]
  exact Or.inr (by rw [← hnum]; exact List.mem_map_of_mem _ h1)

/-- The BPI adapter's graph: every edge strictly increases the measure, and
both endpoints are present in the node collections. -/
theorem bpi_edge_spec (events : List BPI2019.BEvent) (l : FlowLink)
    (hl : l ∈ (BPI2019.toWorkflowFormat events).docFlow) :
    strWeightIR l.precedingDoc < strWeightIR l.subsequentDoc ∧
    l.precedingDoc ∈ (BPI2019.toWorkflowFormat events).nodeIds ∧
    l.subsequentDoc ∈ (BPI2019.toWorkflowFormat events).nodeIds := by
  obtain ⟨d, x, hd, hx, hlx⟩ := bpi_docFlow_src events l hl
  have hshape := (bpi_perDoc_shape events d x hx).2.2.2 l hlx
  have horder := bpi_order_node_mem events d x hd hx
  rcases hshape with ⟨hl1, hs1⟩ | ⟨hl2, hs2, hs3⟩ | ⟨hl3, hs4⟩
  · obtain ⟨del, hdel⟩ := Option.isSome_iff_exists.1 hs1
    subst hl1
    refine ⟨?_, horder, bpi_delivery_node_mem events d x del hd hx hdel⟩
    calc strWeightIR d ≤ 2 * d.data.length + 1 := strWeightIR_le d
      _ < 2 * d.data.length + 4 := by omega
      _ = strWeightIR ("GR" ++ d) := (strWeightIR_GR d).symm
  · obtain ⟨del, hdel⟩ := Option.isSome_iff_exists.1 hs2
    obtain ⟨inv, hinv⟩ := Option.isSome_iff_exists.1 hs3
    subst hl2
    refine ⟨?_, bpi_delivery_node_mem events d x del hd hx hdel,
      bpi_invoice_node_mem events d x inv hd hx hinv⟩
    rw [strWeightIR_GR, strWeightIR_IR]
    omega
  · obtain ⟨inv, hinv⟩ := Option.isSome_iff_exists.1 hs4
    subst hl3
    refine ⟨?_, horder, bpi_invoice_node_mem events d x inv hd hx hinv⟩
    calc strWeightIR d ≤ 2 * d.data.length + 1 := strWeightIR_le d
      _ < 2 * d.data.length + 5 := by omega
      _ = strWeightIR ("IR" ++ d) := (strWeightIR_IR d).symm

/-- Shape of one SALT document's conversion: the order carries the group
key; when synthetic events are generated, the delivery and invoice ids are
`8<doc>` and `9<doc>` and exactly the order-to-delivery and
delivery-to-invoice edges are emitted. -/
theorem salt_perDoc_shape (addDays : String → Nat → String)
    (rows : List SALT.SaltRow) (d : String) :
    (SALT.perDoc addDays rows d).1.documentNumber = d ∧
    (∀ x, (SALT.perDoc addDays rows d).2 = some x →
      x.1.documentNumber = "8" ++ d ∧
      x.2.1.documentNumber = "9" ++ d ∧
      x.2.2 = [⟨d, "8" ++ d, "C", "J"⟩, ⟨"8" ++ d, "9" ++ d, "J", "M"⟩]) := by
  simp only [SALT.perDoc]
  rcases hpc : SALT.parseDate
    (((rows.filter (fun r => r.documentNumber == d)).headD
      ⟨d, Option.none, ""⟩).createdDate) with _ | c
  · rw [hpc]
    exact ⟨rfl, by intro x hx; simp at hx⟩
  · rw [hpc]
    dsimp only
    by_cases hc : c ≠ ""
    · rw [if_pos hc]
      refine ⟨rfl, ?_⟩
      intro x hx
      simp only [Option.some.injEq] at hx
      subst hx
      exact ⟨rfl, rfl, rfl⟩
    · rw [if_neg hc]
      exact ⟨rfl, by intro x hx; simp at hx⟩

/-- Every emitted SALT flow edge comes from some converted document. -/
theorem salt_docFlow_src (addDays : String → Nat → String)
    (rows : List SALT.SaltRow) (l : FlowLink)
    (hl : l ∈ (SALT.toWorkflowFormat addDays rows).docFlow) :
    ∃ d x, d ∈ SALT.docKeys rows ∧
      (SALT.perDoc addDays rows d).2 = some x ∧ l ∈ x.2.2 := by
  simp only [SALT.toWorkflowFormat] at hl
  rw [List.mem_flatMap] at hl
  obtain ⟨d, hd, hld⟩ := hl
  cases hx : (SALT.perDoc addDays rows d).2 with
  | none => rw [hx] at hld; simp at hld
  | some x => rw [hx] at hld; exact ⟨d, x, hd, hx, hld⟩

/-- The order node of a converted SALT document is in the node
collections. -/
theorem salt_order_node_mem (addDays : String → Nat → String)
    (rows : List SALT.SaltRow) (d : String) (hd : d ∈ SALT.docKeys rows) :
    d ∈ (SALT.toWorkflowFormat addDays rows).nodeIds := by
  have h1 : (SALT.perDoc addDays rows d).1 ∈
      (SALT.toWorkflowFormat addDays rows).salesOrders := by
    simp only [SALT.toWorkflowFormat]
    exact List.mem_map_of_mem _ hd
  have hnum := (salt_perDoc_shape addDays rows d).1
  simp only [SALT.SWorkflow.nodeIds, List.mem_append]
  exact Or.inl (Or.inl (by rw [← hnum]; exact List.mem_map_of_mem _ h1))

/-- A synthetic SALT delivery node is in the node collections. -/
theorem salt_delivery_node_mem (addDays : String → Nat → String)
    (rows : List SALT.SaltRow) (d : String)
    (x : SALT.SDelivery × SALT.SInvoice × List FlowLink)
    (hd : d ∈ SALT.docKeys rows)
    (hx : (SALT.perDoc addDays rows d).2 = some x) :
    "8" ++ d ∈ (SALT.toWorkflowFormat addDays rows).nodeIds := by
  have h1 : x.1 ∈ (SALT.toWorkflowFormat addDays rows).deliveries := by
    simp only [SALT.toWorkflowFormat]
    exact List.mem_filterMap.2 ⟨d, hd, by rw [hx]; rfl⟩
  have hnum := ((salt_perDoc_shape addDays rows d).2 x hx).1
  simp only [SALT.SWorkflow.nodeIds, List.mem_append]
  exact Or.inl (Or.inr (by rw [← hnum]; exact List.mem_map_of_mem _ h1))

/-- A synthetic SALT invoice node is in the node collections. -/
theorem salt_invoice_node_mem (addDays : String → Nat → String)
    (rows : List SALT.SaltRow) (d : String)
    (x : SALT.SDelivery × SALT.SInvoice × List FlowLink)
    (hd : d ∈ SALT.docKeys rows)
    (hx : (SALT.perDoc addDays rows d).2 = some x) :
    "9" ++ d ∈ (SALT.toWorkflowFormat addDays rows).nodeIds := by
  have h1 : x.2.1 ∈ (SALT.toWorkflowFormat addDays rows).invoices := by
    simp only [SALT.toWorkflowFormat]
    exact List.mem_filterMap.2 ⟨d, hd, by rw [hx]; rfl⟩
  have hnum := ((salt_perDoc_shape addDays rows d).2 x hx).2.1
  simp only [SALT.SWorkflow.nodeIds, List.mem_append]
  exact Or.inr (by rw [← hnum]; exact List.mem_map_of_mem _ h1)

/-- The SALT adapter's graph: every edge strictly increases the measure,
and both endpoints are present in the node collections. -/
theorem salt_edge_spec (addDays : String → Nat → String)
    (rows : List SALT.SaltRow) (l : FlowLink)
    (hl : l ∈ (SALT.toWorkflowFormat addDays rows).docFlow) :
    strWeight9 l.precedingDoc < strWeight9 l.subsequentDoc ∧
    l.precedingDoc ∈ (SALT.toWorkflowFormat addDays rows).nodeIds ∧
    l.subsequentDoc ∈ (SALT.toWorkflowFormat addDays rows).nodeIds := by
  obtain ⟨d, x, hd, hx, hlx⟩ := salt_docFlow_src addDays rows l hl
  have hedges := ((salt_perDoc_shape addDays rows d).2 x hx).2.2
  rw [hedges] at hlx
  simp only [List.mem_cons, List.mem_singleton] at hlx
  rcases hlx with h1 | h2 | h3
  · subst h1
    refine ⟨?_, salt_order_node_mem addDays rows d hd,
      salt_delivery_node_mem addDays rows d x hd hx⟩
    calc strWeight9 d ≤ 2 * d.data.length + 1 := strWeight9_le d
      _ < 2 * d.data.length + 2 := by omega
      _ = strWeight9 ("8" ++ d) := (strWeight9_eight d).symm
  · subst h2
    refine ⟨?_, salt_delivery_node_mem addDays rows d x hd hx,
      salt_invoice_node_mem addDays rows d x hd hx⟩
    rw [strWeight9_eight, strWeight9_nine]
    omega
  · simp at h3

/-- C4: for both flow-inferring adapters (the BPI 2019 activity-log
adapter and the SALT synthetic-event generator), the produced flow-edge
set is acyclic and both endpoints of every edge occur as document ids in
the produced node collections (orders, deliveries, invoices). -/
theorem C4_inferred_graphs_acyclic_and_closed :
    (∀ events : List BPI2019.BEvent,
      Acyclic (BPI2019.toWorkflowFormat events).docFlow ∧
      ∀ l ∈ (BPI2019.toWorkflowFormat events).docFlow,
        l.precedingDoc ∈ (BPI2019.toWorkflowFormat events).nodeIds ∧
        l.subsequentDoc ∈ (BPI2019.toWorkflowFormat events).nodeIds) ∧
    (∀ (addDays : String → Nat → String) (rows : List SALT.SaltRow),
      Acyclic (SALT.toWorkflowFormat addDays rows).docFlow ∧
      ∀ l ∈ (SALT.toWorkflowFormat addDays rows).docFlow,
        l.precedingDoc ∈ (SALT.toWorkflowFormat addDays rows).nodeIds ∧
        l.subsequentDoc ∈ (SALT.toWorkflowFormat addDays rows).nodeIds) := by
  constructor
  · intro events
    constructor
    · exact acyclic_of_measure _ strWeightIR
        (fun l hl => (bpi_edge_spec events l hl).1)
    · intro l hl
      exact (bpi_edge_spec events l hl).2
  · intro addDays rows
    constructor
    · exact acyclic_of_measure _ strWeight9
        (fun l hl => (salt_edge_spec addDays rows l hl).1)
    · intro l hl
      exact (salt_edge_spec addDays rows l hl).2

/-- C4 witness: for the concrete three-event log, the first emitted edge's
endpoints are both present in the node collections. -/
theorem C4_inferred_graphs_witness :
    ("4500000001" : String) ∈ (BPI2019.toWorkflowFormat
      [⟨some "4500000001", "Create PO", some 0⟩,
       ⟨some "4500000001", "Record Goods Receipt", some 1⟩,
       ⟨some "4500000001", "Record Invoice Receipt", some 2⟩]).nodeIds ∧
    ("GR4500000001" : String) ∈ (BPI2019.toWorkflowFormat
      [⟨some "4500000001", "Create PO", some 0⟩,
       ⟨some "4500000001", "Record Goods Receipt", some 1⟩,
       ⟨some "4500000001", "Record Invoice Receipt", some 2⟩]).nodeIds := by
  have h := ((C4_inferred_graphs_acyclic_and_closed.1
    [⟨some "4500000001", "Create PO", some 0⟩,
     ⟨some "4500000001", "Record Goods Receipt", some 1⟩,
     ⟨some "4500000001", "Record Invoice Receipt", some 2⟩]).2
    ⟨"4500000001", "GR4500000001", "F", "R"⟩ (by decide))
  exact h
